import Mathlib

/-!
Shallow embedding of `server.go` from the `quietpleasure/server-tcp`
repository (package `server`, a configuration/lifecycle wrapper around the
external `github.com/maurice2k/tcpserver` engine).

Modelling conventions:
* Go `*T` optional fields of the `options` struct become `Option T`.
* `net.IP` is modelled by its textual form (the only operations the code
  performs on it are building it from text and formatting it back to text).
* The Go standard-library calls `net.IP.UnmarshalText`, `net.ResolveTCPAddr`
  and the external `tcpserver.NewServer` are parameters of the embedding
  (functions passed in), since their code is outside this repository; the
  wrapper's own control flow around them is translated faithfully.
* The engine-tuning side effects performed by `New` (`srv.SetLoops`, ...)
  are recorded as an explicit list of `EngineCall`s in source order.
* `fmt.Errorf` error values are modelled by a small error datatype.
-/

namespace ServerTcp

/-- Model of Go `net.IP` as carried by this package: the code only ever
builds one from text (`UnmarshalText`) and formats it (`%s`), so the model
keeps the textual form. -/
structure IP where
  text : String
deriving DecidableEq, Repr

/-- Model of the package-level `default_host` pointer initialised in `init()`
by unmarshalling the literal `"127.0.0.1"`. -/
def default_host : IP := ⟨"127.0.0.1"⟩

/-- Opaque model of a `tcpserver.RequestHandlerFunc` value (the code only
stores it and passes it to `srv.SetRequestHandler`). -/
structure Handler where
  id : Nat
deriving DecidableEq, Repr

/-- Model of the `options` struct of `server.go`: every field is a pointer
in Go (`nil` = unset), modelled as `Option`. -/
structure Options where
  host : Option IP := none
  port : Option Int := none
  socketReusePort : Option Bool := none
  socketFastOpen : Option Bool := none
  socketFastOpenQueueLen : Option Int := none
  socketDeferAccept : Option Bool := none
  loops : Option Int := none
  workerpoolShards : Option Int := none
  allowThreadLocking : Option Bool := none
  ballast : Option Int := none
  handler : Option Handler := none
deriving DecidableEq, Repr

/-- Error values produced by the option constructors and by `New`. -/
inductive Err where
  /-- `net.IP.UnmarshalText` failure inside `WithHost`. -/
  | parseIPError (host : String)
  /-- "port cannot be less than zero" from `WithPort`. -/
  | portNegative
  /-- "queue length cannot be less than zero" from `WithSocketFastOpenQueueLen`. -/
  | queueLenNegative
  /-- "ballast cannot be less than or equal to zero" from `WithBallast`. -/
  | ballastNonPositive
  /-- "validate tcp server address: %w" wrapping a `net.ResolveTCPAddr` error. -/
  | validateAddr (msg : String)
  /-- "creates a new server instance: %w" wrapping a `tcpserver.NewServer` error. -/
  | createServer (msg : String)
deriving DecidableEq, Repr

/-- The concrete `Option` constructors exported by `server.go`
(`WithHost`, `WithPort`, ..., `WithRequestHandler`), as a syntax of the
closures they return. -/
inductive Opt where
  | withHost (host : String)
  | withPort (port : Int)
  | withSocketReusePort (enable : Bool)
  | withSocketFastOpen (enable : Bool)
  | withSocketFastOpenQueueLen (len : Int)
  | withSocketDeferAccept (enable : Bool)
  | withLoops (loops : Int)
  | withWorkerpoolShards (shards : Int)
  | withAllowThreadLocking (enable : Bool)
  | withBallast (sizeInMiB : Int)
  | withRequestHandler (f : Handler)
deriving DecidableEq, Repr

/-- Semantics of one option closure applied to the draft `options` struct,
translated from the bodies of `WithHost` ... `WithRequestHandler` in
`server.go`.  `parseIP` models `net.IP.UnmarshalText` (standard library,
outside this repository): `some ip` on success, `none` on error. -/
def applyOpt (parseIP : String → Option IP) : Opt → Options → Except Err Options
  | .withHost host, o =>
      if host = "" ∨ host = "localhost" then
        .ok { o with host := some default_host }
      else
        match parseIP host with
        | some ip => .ok { o with host := some ip }
        | none => .error (.parseIPError host)
  | .withPort port, o =>
      if port < 0 then .error .portNegative
      else .ok { o with port := some port }
  | .withSocketReusePort enable, o =>
      .ok { o with socketReusePort := some enable }
  | .withSocketFastOpen enable, o =>
      .ok { o with socketFastOpen := some enable }
  | .withSocketFastOpenQueueLen len, o =>
      if len < 0 then .error .queueLenNegative
      else .ok { o with socketFastOpenQueueLen := some len }
  | .withSocketDeferAccept enable, o =>
      .ok { o with socketDeferAccept := some enable }
  | .withLoops loops, o =>
      .ok { o with loops := some loops }
  | .withWorkerpoolShards shards, o =>
      .ok { o with workerpoolShards := some shards }
  | .withAllowThreadLocking enable, o =>
      .ok { o with allowThreadLocking := some enable }
  | .withBallast sizeInMiB, o =>
      if sizeInMiB ≤ 0 then .error .ballastNonPositive
      else .ok { o with ballast := some sizeInMiB }
  | .withRequestHandler f, o =>
      .ok { o with handler := some f }

/-- The option-application loop at the top of `New`: apply each option in
order, returning the first error. -/
def applyOpts (parseIP : String → Option IP) : List Opt → Options → Except Err Options
  | [], o => .ok o
  | x :: xs, o =>
      match applyOpt parseIP x o with
      | .ok o' => applyOpts parseIP xs o'
      | .error e => .error e

/-- Model of `tcpserver.ListenConfig` (only the fields this package
touches), with Go zero values as defaults. -/
structure ListenConfig where
  SocketReusePort : Bool := false
  SocketFastOpen : Bool := false
  SocketFastOpenQueueLen : Int := 0
  SocketDeferAccept : Bool := false
deriving DecidableEq, Repr

/-- The `cfg := new(tcpserver.ListenConfig); if opt.x != nil { cfg.X = *opt.x }`
block of `New` (lines 69-78).  Note the source copies `socketReusePort`,
`socketFastOpen` and `socketFastOpenQueueLen` but never reads
`opt.socketDeferAccept`. -/
def buildListenConfig (opt : Options) : ListenConfig :=
  let cfg : ListenConfig := {}
  let cfg := match opt.socketReusePort with
    | some b => { cfg with SocketReusePort := b }
    | none => cfg
  let cfg := match opt.socketFastOpen with
    | some b => { cfg with SocketFastOpen := b }
    | none => cfg
  let cfg := match opt.socketFastOpenQueueLen with
    | some n => { cfg with SocketFastOpenQueueLen := n }
    | none => cfg
  cfg

/-- One engine-tuning call performed by `New` on the `tcpserver.Server`. -/
inductive EngineCall where
  | setLoops (n : Int)
  | setWorkerpoolShards (n : Int)
  | setAllowThreadLocking (b : Bool)
  | setBallast (n : Int)
  | setRequestHandler (h : Handler)
  | setListenConfig (cfg : ListenConfig)
deriving DecidableEq, Repr

/-- The sequence of engine setter calls issued by `New` (lines 79-99), in
source order: each knob's setter runs exactly under its `opt.x != nil`
guard, and `SetListenConfig` always runs last. -/
def engineCalls (opt : Options) : List EngineCall :=
  (match opt.loops with | some n => [.setLoops n] | none => [])
    ++ (match opt.workerpoolShards with | some n => [.setWorkerpoolShards n] | none => [])
    ++ (match opt.allowThreadLocking with | some b => [.setAllowThreadLocking b] | none => [])
    ++ (match opt.ballast with | some n => [.setBallast n] | none => [])
    ++ (match opt.handler with | some h => [.setRequestHandler h] | none => [])
    ++ [.setListenConfig (buildListenConfig opt)]

/-- The `fmt.Sprintf("%s:%d", *host, port)` address synthesis in `New`. -/
def formatAddress (host : IP) (port : Int) : String :=
  host.text ++ ":" ++ toString port

/-- Model of the constructed `*Server`: the validated address and the engine
configuration calls made on the wrapped `tcpserver.Server`. -/
structure Server where
  address : String
  calls : List EngineCall
deriving DecidableEq, Repr

/-- Model of `New` (`server.go` lines 43-102).  `resolveTCPAddr` models
`net.ResolveTCPAddr("tcp", ·)` and `newServer` models
`tcpserver.NewServer(·)` (both outside this repository): `.ok ()` on
success, `.error msg` on failure.  The wrapper's control flow is translated
directly: fold the options (first error aborts), default the host to
`default_host` and the port to `0`, synthesize the address, validate it,
create the engine instance, then issue the tuning calls. -/
def New (parseIP : String → Option IP)
    (resolveTCPAddr : String → Except String Unit)
    (newServer : String → Except String Unit)
    (opts : List Opt) : Except Err Server :=
  match applyOpts parseIP opts {} with
  | .error e => .error e
  | .ok opt =>
      let host := opt.host.getD default_host
      let port := opt.port.getD 0
      let address := formatAddress host port
      match resolveTCPAddr address with
      | .error e => .error (.validateAddr e)
      | .ok _ =>
          match newServer address with
          | .error e => .error (.createServer e)
          | .ok _ => .ok { address := address, calls := engineCalls opt }

/-- A parse function for concrete evaluations: recognises no IP literal.
The claims proved against it only exercise paths where the structure of
`WithHost` decides the outcome before parsing, or where parsing must fail. -/
def noParse : String → Option IP := fun _ => none

/-- A `net.ResolveTCPAddr` model that always succeeds, for concrete
evaluations. -/
def resolveOk : String → Except String Unit := fun _ => .ok ()

/-- A `tcpserver.NewServer` model that always succeeds, for concrete
evaluations. -/
def newServerOk : String → Except String Unit := fun _ => .ok ()

/-! ## Claim C1: defer-accept carried to the listen configuration

The claim says that `WithSocketDeferAccept(b)` results in the engine's
listen-time socket flags including defer-accept = `b`, just as reuse-port
and fast-open values are carried over.  The source stores the value in
`opt.socketDeferAccept` but `New` never reads that field when building the
`tcpserver.ListenConfig` (lines 69-78 copy only reuse-port, fast-open and
the fast-open queue length), so defer-accept is silently dropped while its
siblings are carried.  This contradicts the option's own documentation
("Enable/disable TCP_DEFER_ACCEPT"): a code bug. -/

/-- C1: evaluating the code at the failing input: applying
`WithSocketDeferAccept(true)` records the value in the options struct, yet
the listen configuration handed to the engine still has defer-accept =
false; by contrast reuse-port set the same way is carried over, and the
server built from `WithSocketDeferAccept(true)` hands the engine an
all-default listen configuration. -/
theorem deferAccept_dropped_by_New :
    applyOpts noParse [.withSocketDeferAccept true] {} =
      .ok { socketDeferAccept := some true } ∧
    (buildListenConfig { socketDeferAccept := some true }).SocketDeferAccept = false ∧
    (buildListenConfig { socketReusePort := some true }).SocketReusePort = true ∧
    New noParse resolveOk newServerOk [.withSocketDeferAccept true] =
      .ok { address := "127.0.0.1:0",
            calls := [.setListenConfig {}] } := by
  exact ⟨rfl, rfl, rfl, rfl⟩

/-! ## Claim C2: positivity of `loops` and `workerpoolShards`

The claim says set values of `loops` / `workerpoolShards` are always
positive.  The source's `WithLoops` and `WithWorkerpoolShards` perform no
validation at all: any integer, including non-positive ones, is accepted
and stored. -/

/-- C2 counterexample: `WithLoops(-1)` and `WithWorkerpoolShards(0)` are
accepted without error and leave the corresponding field holding a
non-positive value. -/
theorem loops_shards_nonpositive_accepted :
    applyOpts noParse [.withLoops (-1), .withWorkerpoolShards 0] {} =
      .ok { loops := some (-1), workerpoolShards := some 0 } ∧
    (-1 : Int) ≤ 0 ∧ (0 : Int) ≤ 0 := by
  exact ⟨rfl, by decide, by decide⟩

/-- C2 (amended): `WithLoops(n)` and `WithWorkerpoolShards(n)` never return
an error and store exactly the given integer `n`, with no positivity check:
a non-positive argument yields a configuration whose field is non-positive. -/
theorem withLoops_withWorkerpoolShards_store_any_value
    (parseIP : String → Option IP) (n : Int) (o : Options) :
    applyOpt parseIP (.withLoops n) o = .ok { o with loops := some n } ∧
    applyOpt parseIP (.withWorkerpoolShards n) o =
      .ok { o with workerpoolShards := some n } := by
  exact ⟨rfl, rfl⟩

/-! ## Claim C4: host resolution in `WithHost` -/

/-- C4: for host `""` or `"localhost"`, `WithHost` never errors and resolves
the host to the fixed loopback default `127.0.0.1` (whatever the IP parser
does); for any other host string the parser rejects, `WithHost` returns the
parse error. -/
theorem withHost_localhost_default_and_parse_failure
    (parseIP : String → Option IP) (o : Options) :
    default_host.text = "127.0.0.1" ∧
    applyOpt parseIP (.withHost "") o = .ok { o with host := some default_host } ∧
    applyOpt parseIP (.withHost "localhost") o =
      .ok { o with host := some default_host } ∧
    ∀ s : String, s ≠ "" → s ≠ "localhost" → parseIP s = none →
      applyOpt parseIP (.withHost s) o = .error (.parseIPError s) := by
  refine ⟨rfl, rfl, rfl, ?_⟩
  intro s hne hnl hp
  simp [applyOpt, hne, hnl, hp]

/-- C4 witness: instantiated at the parser that rejects everything and the
empty draft, with the non-IP string `"not-an-ip"`. -/
theorem withHost_localhost_default_and_parse_failure_witness :
    applyOpt noParse (.withHost "") {} = .ok { host := some default_host } ∧
    applyOpt noParse (.withHost "not-an-ip") {} =
      .error (.parseIPError "not-an-ip") := by
  refine ⟨(withHost_localhost_default_and_parse_failure noParse {}).2.1, ?_⟩
  exact (withHost_localhost_default_and_parse_failure noParse {}).2.2.2
    "not-an-ip" (by decide) (by decide) rfl

/-! ## Claim C7: `WithBallast` validation -/

/-- C7: for `sizeInMiB ≤ 0`, `WithBallast` returns the configuration error
(so the ballast field of the draft is never written: no updated options
value is produced at all), and for `sizeInMiB > 0` it succeeds and sets
`ballast` to exactly `sizeInMiB`. -/
theorem withBallast_validation
    (parseIP : String → Option IP) (n : Int) (o : Options) :
    (n ≤ 0 → applyOpt parseIP (.withBallast n) o = .error .ballastNonPositive) ∧
    (0 < n → applyOpt parseIP (.withBallast n) o = .ok { o with ballast := some n }) := by
  constructor
  · intro h
    simp [applyOpt, h]
  · intro h
    simp [applyOpt, not_le.mpr h]

/-- C7 witness: `WithBallast(-5)` errors and `WithBallast(64)` sets
ballast = 64, on the empty draft. -/
theorem withBallast_validation_witness :
    applyOpt noParse (.withBallast (-5)) {} = .error .ballastNonPositive ∧
    applyOpt noParse (.withBallast 64) {} = .ok { ballast := some 64 } := by
  exact ⟨(withBallast_validation noParse (-5) {}).1 (by decide),
         (withBallast_validation noParse 64 {}).2 (by decide)⟩

/-! ## Shared lemmas about the option-application loop -/

/-- Splitting the option-application loop over list concatenation: the fold
of `a ++ b` is the fold of `a` followed, on success, by the fold of `b`. -/
theorem applyOpts_append (parseIP : String → Option IP) (a b : List Opt)
    (s : Options) :
    applyOpts parseIP (a ++ b) s =
      match applyOpts parseIP a s with
      | .ok m => applyOpts parseIP b m
      | .error e => .error e := by
  induction a generalizing s with
  | nil => simp [applyOpts]
  | cons x xs ih =>
      simp only [List.cons_append, applyOpts]
      cases applyOpt parseIP x s with
      | ok o' => simpa using ih o'
      | error e => rfl

/-! ## Claim C3: first validation error aborts the build -/

/-- C3: if the options before `o` all apply cleanly and `o` itself returns a
validation error `e`, then `New` on the full sequence returns exactly that
first error `e`, whatever options follow `o` (none of them is applied: the
result does not depend on `post`) and whatever the address resolver and
engine constructor would do — no server value is produced. -/
theorem new_returns_first_option_error
    (parseIP : String → Option IP)
    (resolveTCPAddr newServer : String → Except String Unit)
    (pre post : List Opt) (o : Opt) (s : Options) (e : Err)
    (hpre : applyOpts parseIP pre {} = .ok s)
    (herr : applyOpt parseIP o s = .error e) :
    New parseIP resolveTCPAddr newServer (pre ++ o :: post) = .error e := by
  have hall : applyOpts parseIP (pre ++ o :: post) {} = .error e := by
    rw [applyOpts_append, hpre]
    simp [applyOpts, herr]
  simp [New, hall]

/-- C3 witness: the sequence `[WithPort 8080, WithPort (-1), WithLoops 7]`
makes `New` fail with the port error from the second option, with the third
option unapplied. -/
theorem new_returns_first_option_error_witness :
    New noParse resolveOk newServerOk
        [.withPort 8080, .withPort (-1), .withLoops 7] = .error .portNegative := by
  exact new_returns_first_option_error noParse resolveOk newServerOk
    [.withPort 8080] [.withLoops 7] (.withPort (-1)) { port := some 8080 }
    .portNegative rfl rfl

/-! ## Claim C6: address validation gates server construction -/

/-- C6: when the options apply cleanly but `net.ResolveTCPAddr` rejects the
synthesized `host:port` address, `New` returns the wrapped
address-validation error; the result holds for every `newServer` function,
so no engine instance is constructed and no partial server value escapes. -/
theorem new_address_validation_gate
    (parseIP : String → Option IP)
    (resolveTCPAddr newServer : String → Except String Unit)
    (opts : List Opt) (opt : Options) (e : String)
    (hopts : applyOpts parseIP opts {} = .ok opt)
    (hres : resolveTCPAddr
        (formatAddress (opt.host.getD default_host) (opt.port.getD 0)) =
      .error e) :
    New parseIP resolveTCPAddr newServer opts = .error (.validateAddr e) := by
  simp [New, hopts, hres]

/-- C6 witness: with a resolver that rejects every address, `New` with no
options fails with the address-validation error, independently of the
engine constructor. -/
theorem new_address_validation_gate_witness :
    New noParse (fun _ => .error "unresolvable") newServerOk [] =
      .error (.validateAddr "unresolvable") := by
  exact new_address_validation_gate noParse (fun _ => .error "unresolvable")
    newServerOk [] {} "unresolvable" rfl rfl

/-! ## Claim C10: `New` with no options -/

/-- C10: with an empty option list, the host defaults to the loopback
`127.0.0.1` and the port to `0`, so the synthesized and validated address is
`"127.0.0.1:0"`; provided the (standard-library) address resolution and the
engine construction succeed on that address, `New` returns a server value
(no error) carrying that address, with only the final `SetListenConfig`
call issued. -/
theorem new_defaults_loopback_port_zero
    (parseIP : String → Option IP)
    (resolveTCPAddr newServer : String → Except String Unit)
    (hres : resolveTCPAddr "127.0.0.1:0" = .ok ())
    (hnew : newServer "127.0.0.1:0" = .ok ()) :
    New parseIP resolveTCPAddr newServer [] =
      .ok { address := "127.0.0.1:0", calls := [.setListenConfig {}] } := by
  have haddr : formatAddress default_host 0 = "127.0.0.1:0" := rfl
  simp [New, applyOpts, haddr, hres, hnew, engineCalls, buildListenConfig]

/-- C10 witness: instantiated with resolver and engine constructor that
succeed on every address. -/
theorem new_defaults_loopback_port_zero_witness :
    New noParse resolveOk newServerOk [] =
      .ok { address := "127.0.0.1:0", calls := [.setListenConfig {}] } := by
  exact new_defaults_loopback_port_zero noParse resolveOk newServerOk rfl rfl

/-! ## Claim C9: engine setters fire exactly for explicitly set knobs -/

/-- C9: for each of the five tunable knobs (loop count, worker-pool shard
count, thread-locking policy, ballast, request handler), `New` issues the
corresponding engine setter call exactly when the caller set that field,
and with exactly the value the caller set; an unset field produces no
setter call at all, leaving the engine default untouched. -/
theorem engine_setters_iff_field_set (opt : Options) :
    (∀ n, .setLoops n ∈ engineCalls opt ↔ opt.loops = some n) ∧
    (∀ n, .setWorkerpoolShards n ∈ engineCalls opt ↔ opt.workerpoolShards = some n) ∧
    (∀ b, .setAllowThreadLocking b ∈ engineCalls opt ↔ opt.allowThreadLocking = some b) ∧
    (∀ n, .setBallast n ∈ engineCalls opt ↔ opt.ballast = some n) ∧
    (∀ h, .setRequestHandler h ∈ engineCalls opt ↔ opt.handler = some h) := by
  obtain ⟨h, p, rp, fo, fq, da, lp, ws, tl, bl, hd⟩ := opt
  refine ⟨?_, ?_, ?_, ?_, ?_⟩ <;> intro v <;>
    cases lp <;> cases ws <;> cases tl <;> cases bl <;> cases hd <;>
    simp [engineCalls, eq_comm]

/-! ## Claim C8: the shutdown coordinator `AwaitStopSignal`

`AwaitStopSignal` is straight-line effectful Go: it makes a buffered signal
channel, calls `signal.Notify` with `os.Interrupt`, `syscall.SIGINT`,
`SIGTERM`, `SIGHUP`, `SIGQUIT`, `SIGABRT`, blocks on the channel, then
returns the received signal paired with the result of one `Shutdown`
call.  The model records the subscription list, takes the first arriving
signal as a parameter (the blocking receive), records each `Shutdown`
invocation with its timeout argument, and returns the pair. -/

/-- POSIX signals relevant to the model; `os.Interrupt` equals `SIGINT`. -/
inductive Signal where
  | sigint
  | sigterm
  | sighup
  | sigquit
  | sigabrt
  | sigkill
  | sigusr1
  | sigpipe
deriving DecidableEq, Repr

/-- The signals passed to `signal.Notify` in `AwaitStopSignal`, in source
order: `os.Interrupt` (= SIGINT), `SIGINT`, `SIGTERM`, `SIGHUP`, `SIGQUIT`,
`SIGABRT`. -/
def subscribedSignals : List Signal :=
  [.sigint, .sigint, .sigterm, .sighup, .sigquit, .sigabrt]

/-- Observable outcome of one `AwaitStopSignal` run: what was subscribed,
which `Shutdown` calls were made (each recorded with its timeout argument),
and the returned pair. -/
structure StopResult where
  subscribed : List Signal
  shutdownCalls : List Int
  returnedSignal : Signal
  returnedErr : Option String
deriving DecidableEq, Repr

/-- Model of `(*Server).AwaitStopSignal(stopTimeout)`: subscribe, block for
the first arriving signal `sig`, call `Shutdown(stopTimeout)` once, return
`(sig, shutdown-error)`.  `shutdown` models `(*tcpserver.Server).Shutdown`
(external engine): `none` = nil error.  The timeout is a `time.Duration`,
modelled as an integer nanosecond count. -/
def AwaitStopSignal (shutdown : Int → Option String) (sig : Signal)
    (stopTimeout : Int) : StopResult :=
  { subscribed := subscribedSignals
    shutdownCalls := [stopTimeout]
    returnedSignal := sig
    returnedErr := shutdown stopTimeout }

/-- C8: `AwaitStopSignal(stopTimeout)` subscribes to exactly the set
{interrupt, terminate, hangup, quit, abort} (no other signal is subscribed,
and each of those five is), invokes `Shutdown` exactly once and with
`stopTimeout`, and returns the pair of the first arriving signal and that
`Shutdown` call's error value. -/
theorem awaitStopSignal_contract (shutdown : Int → Option String)
    (sig : Signal) (stopTimeout : Int) :
    (∀ s, s ∈ (AwaitStopSignal shutdown sig stopTimeout).subscribed ↔
        s ∈ [Signal.sigint, .sigterm, .sighup, .sigquit, .sigabrt]) ∧
    (AwaitStopSignal shutdown sig stopTimeout).shutdownCalls = [stopTimeout] ∧
    (AwaitStopSignal shutdown sig stopTimeout).returnedSignal = sig ∧
    (AwaitStopSignal shutdown sig stopTimeout).returnedErr = shutdown stopTimeout := by
  refine ⟨?_, rfl, rfl, rfl⟩
  intro s
  cases s <;> simp [AwaitStopSignal, subscribedSignals]

/-! ## Claim C5: last-write-wins over the configuration record

To quantify over "each field of the configuration record" we name the
eleven fields of `options` and read them through one uniform value type. -/

/-- The fields of the `options` struct. -/
inductive Field where
  | host
  | port
  | socketReusePort
  | socketFastOpen
  | socketFastOpenQueueLen
  | socketDeferAccept
  | loops
  | workerpoolShards
  | allowThreadLocking
  | ballast
  | handler
deriving DecidableEq, Repr

/-- A field value, tagged with its type. -/
inductive FVal where
  | ip (v : Option IP)
  | int (v : Option Int)
  | bool (v : Option Bool)
  | hdl (v : Option Handler)
deriving DecidableEq, Repr

/-- Read one named field out of an `options` record. -/
def getField : Field → Options → FVal
  | .host, o => .ip o.host
  | .port, o => .int o.port
  | .socketReusePort, o => .bool o.socketReusePort
  | .socketFastOpen, o => .bool o.socketFastOpen
  | .socketFastOpenQueueLen, o => .int o.socketFastOpenQueueLen
  | .socketDeferAccept, o => .bool o.socketDeferAccept
  | .loops, o => .int o.loops
  | .workerpoolShards, o => .int o.workerpoolShards
  | .allowThreadLocking, o => .bool o.allowThreadLocking
  | .ballast, o => .int o.ballast
  | .handler, o => .hdl o.handler

/-- The single field each option constructor writes (each `With*` closure
in `server.go` assigns exactly one field of the `options` struct). -/
def writes : Opt → Field
  | .withHost _ => .host
  | .withPort _ => .port
  | .withSocketReusePort _ => .socketReusePort
  | .withSocketFastOpen _ => .socketFastOpen
  | .withSocketFastOpenQueueLen _ => .socketFastOpenQueueLen
  | .withSocketDeferAccept _ => .socketDeferAccept
  | .withLoops _ => .loops
  | .withWorkerpoolShards _ => .workerpoolShards
  | .withAllowThreadLocking _ => .allowThreadLocking
  | .withBallast _ => .ballast
  | .withRequestHandler _ => .handler

/-- The value an option writes into its field when it applies successfully
(for `WithHost` this is the loopback default on `""`/`"localhost"` and the
parsed IP otherwise; the `getD` arm is unreachable under success). -/
def writtenVal (parseIP : String → Option IP) : Opt → FVal
  | .withHost host =>
      .ip (some (if host = "" ∨ host = "localhost" then default_host
                 else (parseIP host).getD default_host))
  | .withPort port => .int (some port)
  | .withSocketReusePort enable => .bool (some enable)
  | .withSocketFastOpen enable => .bool (some enable)
  | .withSocketFastOpenQueueLen len => .int (some len)
  | .withSocketDeferAccept enable => .bool (some enable)
  | .withLoops loops => .int (some loops)
  | .withWorkerpoolShards shards => .int (some shards)
  | .withAllowThreadLocking enable => .bool (some enable)
  | .withBallast sizeInMiB => .int (some sizeInMiB)
  | .withRequestHandler f => .hdl (some f)

/-- A successful option application writes exactly `writtenVal` into the
field it targets. -/
theorem getField_writes_of_applyOpt_ok (parseIP : String → Option IP)
    (o : Opt) (s s' : Options) (h : applyOpt parseIP o s = .ok s') :
    getField (writes o) s' = writtenVal parseIP o := by
  cases o <;> simp only [applyOpt] at h <;>
    (try split at h) <;> (try split at h) <;>
    first
      | exact Except.noConfusion h
      | (simp only [Except.ok.injEq] at h
         subst h
         simp_all [getField, writes, writtenVal])

/-- Frame condition: a successful option application leaves every field it
does not target unchanged. -/
theorem getField_frame (parseIP : String → Option IP) (o : Opt) (F : Field)
    (s s' : Options) (hw : writes o ≠ F)
    (h : applyOpt parseIP o s = .ok s') :
    getField F s' = getField F s := by
  cases o <;> simp only [applyOpt] at h <;>
    (try split at h) <;> (try split at h) <;>
    first
      | exact Except.noConfusion h
      | (simp only [Except.ok.injEq] at h
         subst h
         cases F <;> simp_all [getField, writes])

/-- Frame condition extended along a successful fold: a list of options
touching none of field `F` preserves `F`. -/
theorem getField_frame_opts (parseIP : String → Option IP) (l : List Opt)
    (F : Field) (s s' : Options) (hw : ∀ o ∈ l, writes o ≠ F)
    (h : applyOpts parseIP l s = .ok s') :
    getField F s' = getField F s := by
  induction l generalizing s with
  | nil =>
      simp only [applyOpts, Except.ok.injEq] at h
      subst h
      rfl
  | cons x xs ih =>
      cases hx : applyOpt parseIP x s with
      | error e => simp [applyOpts, hx] at h
      | ok m =>
          simp only [applyOpts, hx] at h
          have h1 := getField_frame parseIP x F s m (hw x (by simp)) hx
          have h2 := ih m (fun o ho => hw o (by simp [ho])) h
          rw [h2, h1]

/-- C5: last-write-wins for every field.  If a valid (error-free as a
whole) option sequence decomposes as `l1 ++ o :: l2` where option `o` sets
field `F` and no option after it sets `F` again, then the built
configuration's field `F` holds exactly the value written by `o` — the last
writer of each field decides it, for all fields of the record. -/
theorem last_write_wins (parseIP : String → Option IP) (l1 l2 : List Opt)
    (o : Opt) (F : Field) (init res : Options)
    (hw : writes o = F)
    (hrest : ∀ o' ∈ l2, writes o' ≠ F)
    (hok : applyOpts parseIP (l1 ++ o :: l2) init = .ok res) :
    getField F res = writtenVal parseIP o := by
  rw [applyOpts_append] at hok
  cases h1 : applyOpts parseIP l1 init with
  | error e => simp [h1] at hok
  | ok mid =>
      simp only [h1] at hok
      cases h2 : applyOpt parseIP o mid with
      | error e => simp [applyOpts, h2] at hok
      | ok mid2 =>
          simp only [applyOpts, h2] at hok
          have hA := getField_writes_of_applyOpt_ok parseIP o mid mid2 h2
          have hB := getField_frame_opts parseIP l2 F mid2 res hrest hok
          rw [hB, ← hw, hA]

/-- C5 witness: in `[WithPort 1, WithLoops 9, WithPort 2, WithLoops 3]` the
port field of the result is decided by the later `WithPort 2`, not the
earlier `WithPort 1`. -/
theorem last_write_wins_witness :
    getField .port { port := some 2, loops := some 3 } =
      writtenVal noParse (.withPort 2) := by
  exact last_write_wins noParse [.withPort 1, .withLoops 9] [.withLoops 3]
    (.withPort 2) .port {} { port := some 2, loops := some 3 }
    rfl (by decide) rfl

end ServerTcp
